import Mathlib

/-!
# go-callvis: the command-line front end (`main.go`)

A shallow embedding of `parseHTTPAddr`, `outputDot`, `main` and `init`, and
the properties of mode selection, start-up ordering, error aborts, address
normalisation and flag values that follow from the code.

Go strings are modelled as Lean strings, one character of the Lean string
standing for one byte of the Go string when it is ASCII; a character outside
ASCII stands for the bytes of its UTF-8 encoding.
-/

namespace GoCallvis

/-! ## Standard-library functions called by `parseHTTPAddr` -/

/-- Index of the first occurrence of `c` in `s`, `none` where Go returns `-1`
(`bytealg.IndexByteString`). -/
def indexByte : List Char → Char → Option Nat
  | [], _ => none
  | x :: xs, c => if x = c then some 0 else (indexByte xs c).map (· + 1)

/-- Index of the last occurrence of `c` in `s`, `none` where Go returns `-1`
(`bytealg.LastIndexByteString`). -/
def lastIndexByte : List Char → Char → Option Nat
  | [], _ => none
  | x :: xs, c =>
    match lastIndexByte xs c with
    | some i => some (i + 1)
    | none => if x = c then some 0 else none

/-- Go's `*net.AddrError`: the reason and the offending address. -/
structure AddrError where
  Err : String
  Addr : String
deriving DecidableEq, Repr

/-- The closure `addrErr` of `net.SplitHostPort`: empty host, empty port, and
the error. -/
def addrErr (addr why : String) : String × String × Option AddrError :=
  ("", "", some ⟨why, addr⟩)

/-- The tail of `net.SplitHostPort` that is common to the bracketed and the
unbracketed form: no `[` from position `j` on, no `]` from position `k` on,
and the port is what follows the last colon (position `i`). -/
def splitTail (hostport : String) (host : List Char) (j k i : Nat) :
    String × String × Option AddrError :=
  if (indexByte (hostport.data.drop j) '[').isSome then
    addrErr hostport "unexpected '[' in address"
  else if (indexByte (hostport.data.drop k) ']').isSome then
    addrErr hostport "unexpected ']' in address"
  else
    (String.mk host, String.mk (hostport.data.drop (i + 1)), none)

/-- Go's `net.SplitHostPort`: splits `host:port`, `host%zone:port`,
`[host]:port` or `[host%zone]:port` into host and port; returns the triple
`(host, port, err)` of the Go function. -/
def SplitHostPort (hostport : String) : String × String × Option AddrError :=
  match lastIndexByte hostport.data ':' with
  | none => addrErr hostport "missing port in address"
  | some i =>
    if hostport.data.head? = some '[' then
      match indexByte hostport.data ']' with
      | none => addrErr hostport "missing ']' in address"
      | some end_ =>
        if end_ + 1 = hostport.data.length then
          addrErr hostport "missing port in address"
        else if end_ + 1 = i then
          splitTail hostport ((hostport.data.drop 1).take (end_ - 1)) 1 (end_ + 1) i
        else if hostport.data.get? (end_ + 1) = some ':' then
          addrErr hostport "too many colons in address"
        else
          addrErr hostport "missing port in address"
    else
      if (indexByte (hostport.data.take i) ':').isSome then
        addrErr hostport "too many colons in address"
      else
        splitTail hostport (hostport.data.take i) 0 0 i

/-- The test `'a' <= c && c <= 'z' || 'A' <= c && c <= 'Z' || '0' <= c && c <= '9'`
that opens Go's `url.shouldEscape`. -/
def isAlnumByte (c : Char) : Bool :=
  decide (('a' ≤ c ∧ c ≤ 'z') ∨ ('A' ≤ c ∧ c ≤ 'Z') ∨ ('0' ≤ c ∧ c ≤ '9'))

/-- Go's `url.shouldEscape(c, encodeHost)`: letters, digits, the
sub-delimiters a host may carry and the unreserved marks stay as they are;
every other byte is escaped, and so is every byte of a character outside
ASCII. -/
def shouldEscapeHost (c : Char) : Bool :=
  if isAlnumByte c then false
  else if c ∈ ['!', '$', '&', '\'', '(', ')', '*', '+', ',', ';', '=', ':', '[', ']', '<', '>', '"'] then false
  else if c ∈ ['-', '_', '.', '~'] then false
  else true

/-- The table `upperhex` of `net/url`. -/
def upperhex : List Char := "0123456789ABCDEF".data

/-- The three bytes `%XX` that `url.escape` writes for the byte `b`. -/
def pctEncode (b : Nat) : List Char :=
  ['%', upperhex.getD (b / 16) '0', upperhex.getD (b % 16) '0']

/-- What `url.escape(s, encodeHost)` writes for one character of `s`: the
character itself, or `%XX` for each of its bytes. -/
def escapeHostChar (c : Char) : List Char :=
  if shouldEscapeHost c then (String.utf8EncodeChar c).flatMap (fun b => pctEncode b.toNat)
  else [c]

/-- Go's `url.escape(s, encodeHost)`. -/
def escapeHost (s : String) : String :=
  String.mk (s.data.flatMap escapeHostChar)

/-- Go's `url.URL`, the two fields `parseHTTPAddr` sets; every other field
keeps its zero value. -/
structure URL where
  Scheme : String
  Host : String
deriving DecidableEq, Repr

/-- Go's `(*url.URL).String` for a URL whose other fields are zero:
`scheme:`, then `//` and the escaped host when there is a host. -/
def URL.String (u : URL) : String :=
  (if u.Scheme ≠ "" then u.Scheme ++ ":" else "") ++
  (if u.Scheme ≠ "" ∨ u.Host ≠ "" then
    (if u.Host ≠ "" then "//" ++ escapeHost u.Host else "")
   else "")

/-! ## `main.go` -/

/-- `parseHTTPAddr` of `main.go`. -/
def parseHTTPAddr (addr : String) : String :=
  let r := SplitHostPort addr
  let host := if r.1 = "" then "localhost" else r.1
  let port := if r.2.1 = "" then "80" else r.2.1
  let u : URL := { Scheme := "http", Host := host ++ ":" ++ port }
  u.String

/-- A Go `error` value that is not nil, by its message. -/
structure GoError where
  msg : String
deriving DecidableEq, Repr

/-- The command line after `flag.Parse()`: the value of every flag variable
of `main.go` that `main` or `outputDot` reads, and the positional arguments
(`flag.Args()`). -/
structure Flags where
  testFlag : Bool
  httpFlag : String
  skipBrowser : Bool
  outputFile : String
  outputFormat : String
  callgraphAlgo : String
  debugFlag : Bool
  versionFlag : Bool
  args : List String
deriving DecidableEq, Repr

/-- The calls `main` and `outputDot` make that are visible from outside, with
their arguments. -/
inductive Event where
  | stderrPrintln (s : String)
  | stderrPrint (s : String)
  | PrintDefaults
  | logSetFlags
  | newAnalysis
  | DoAnalysis (algo dir : String) (tests : Bool) (args : List String)
  | HandleFunc (pattern : String)
  | goOpenBrowser (url : String)
  | logPrint (s : String)
  | logFatal (s : String)
  | ListenAndServe (addr : String)
  | outputDot (fname format : String)
  | OptsSetup
  | ProcessListArgs
  | Render
  | WriteFile (name : String) (data : List UInt8) (perm : Nat)
  | dotToImage (fname format : String) (data : List UInt8)
deriving DecidableEq, Repr

/-- What the functions of the repository outside `main.go`, the file system
and the HTTP server answer in one run. `ListenAndServe` answers `none` when it
keeps serving and never returns. -/
structure Env where
  Version : String
  DoAnalysis : String → String → Bool → List String → Option GoError
  ProcessListArgs : Option GoError
  Render : List UInt8 × Option GoError
  WriteFile : String → List UInt8 → Nat → Option GoError
  dotToImage : String → String → List UInt8 → String × Option GoError
  ListenAndServe : String → Option GoError

/-- The state of a run: the flag variables (`*outputFile` is assigned by
`main`) and the calls made so far, oldest first. -/
structure World where
  flags : Flags
  trace : List Event
deriving DecidableEq, Repr

/-- How a piece of the program ends: it returns a value, the process exits
with a status, or a call never returns. -/
inductive Result (α : Type) where
  | ok (a : α) (w : World)
  | exit (code : Nat) (w : World)
  | blocked (w : World)
deriving Repr

/-- The state at the end. -/
def Result.world {α : Type} : Result α → World
  | .ok _ w => w
  | .exit _ w => w
  | .blocked w => w

/-- The calls made, oldest first. -/
def Result.trace {α : Type} (r : Result α) : List Event := r.world.trace

/-- The exit status, when the process exited. -/
def Result.exitCode {α : Type} : Result α → Option Nat
  | .exit c _ => some c
  | _ => none

/-- A piece of the program: a function of the state. -/
def M (α : Type) : Type := World → Result α

/-- Sequencing: what follows runs only when what precedes returned. -/
def M.bind {α β : Type} (m : M α) (k : α → M β) : M β := fun w =>
  match m w with
  | .ok a w1 => k a w1
  | .exit c w1 => .exit c w1
  | .blocked w1 => .blocked w1

instance : Monad M where
  pure a := fun w => .ok a w
  bind := M.bind

/-- Records one call. -/
def emit (e : Event) : M Unit := fun w => .ok () { w with trace := w.trace ++ [e] }

/-- Reads the flag variables. -/
def getFlags : M Flags := fun w => .ok w.flags w

/-- The assignment `*outputFile = name`. -/
def setOutputFile (name : String) : M Unit := fun w =>
  .ok () { w with flags := { w.flags with outputFile := name } }

/-- Go's `os.Exit(code)`. -/
def osExit {α : Type} (code : Nat) : M α := fun w => .exit code w

/-- Go's `log.Fatal` and `log.Fatalf`: print the message, then `os.Exit(1)`. -/
def logFatal {α : Type} (s : String) : M α := do
  emit (.logFatal s)
  osExit 1

/-- A call that does not return. -/
def block {α : Type} : M α := fun w => .blocked w

/-- The constant `Usage` of `main.go`. -/
def Usage : String :=
  "go-callvis: visualize call graph of a Go program.\n\nUsage:\n\n  go-callvis [flags] package\n\n  Package should be main package, otherwise -tests flag must be used.\n\nFlags:\n\n"

/-- `outputDot` of `main.go`. -/
def outputDot (env : Env) (fname : String) (outputFormat : String) : M Unit := do
  emit (.outputDot fname outputFormat)
  emit .OptsSetup
  emit .ProcessListArgs
  if let some e := env.ProcessListArgs then
    logFatal (e.msg ++ "\n")
  emit .Render
  let (output, err) := env.Render
  if let some e := err then
    logFatal (e.msg ++ "\n")
  emit (.logPrint "writing dot output..")
  emit (.WriteFile (fname ++ ".gv") output 0o755)
  let writeErr := env.WriteFile (fname ++ ".gv") output 0o755
  if let some e := writeErr then
    logFatal (e.msg ++ "\n")
  emit (.logPrint ("converting dot to " ++ outputFormat ++ "..\n"))
  emit (.dotToImage fname outputFormat output)
  let (_, err) := env.dotToImage fname outputFormat output
  if let some e := err then
    logFatal (e.msg ++ "\n")

/-- `main` of `main.go`, after `flag.Parse()`. -/
def main (env : Env) : M Unit := do
  if (← getFlags).versionFlag then
    emit (.stderrPrintln env.Version)
    osExit 0
  if (← getFlags).debugFlag then
    emit .logSetFlags
  if (← getFlags).args.length ≠ 1 then
    emit (.stderrPrint Usage)
    emit .PrintDefaults
    osExit 2
  let args := (← getFlags).args
  let tests := (← getFlags).testFlag
  let httpAddr := (← getFlags).httpFlag
  let urlAddr := parseHTTPAddr httpAddr
  emit .newAnalysis
  emit (.DoAnalysis (← getFlags).callgraphAlgo "" tests args)
  if let some err := env.DoAnalysis (← getFlags).callgraphAlgo "" tests args then
    logFatal err.msg
  emit (.HandleFunc "/")
  if (← getFlags).outputFile = "" then
    setOutputFile "output"
    if !(← getFlags).skipBrowser then
      emit (.goOpenBrowser urlAddr)
    emit (.logPrint ("http serving at " ++ urlAddr))
    emit (.ListenAndServe httpAddr)
    match env.ListenAndServe httpAddr with
    | some err => logFatal err.msg
    | none => block
  else
    outputDot env (← getFlags).outputFile (← getFlags).outputFormat

/-- A run of the program on a command line. -/
def run (env : Env) (f : Flags) : Result Unit := main env { flags := f, trace := [] }

/-! ## Styling options registered by `init` -/

/-- The Graphviz variables `init` binds flags to, but for `nodesep`, which is
a floating-point number. -/
structure Styling where
  minlen : Nat
  nodeshape : String
  nodestyle : String
  rankdir : String
deriving DecidableEq, Repr

/-- The `uint` variables `init` hands to `flag.UintVar`. -/
inductive UintRef where
  | minlen
deriving DecidableEq, Repr

/-- The `string` variables `init` hands to `flag.StringVar`. -/
inductive StringRef where
  | nodeshape
  | nodestyle
  | rankdir
deriving DecidableEq, Repr

/-- One call of the flag package in `init`: the variable, the flag's name, its
default and its usage text. -/
inductive Registration where
  | UintVar (p : UintRef) (name : String) (value : Nat) (usage : String)
  | StringVar (p : StringRef) (name : String) (value : String) (usage : String)
deriving DecidableEq, Repr

/-- The flag's name. -/
def Registration.name : Registration → String
  | .UintVar _ name _ _ => name
  | .StringVar _ name _ _ => name

/-- `init` of `main.go`, the calls of `flag.UintVar` and `flag.StringVar` in
the order of the source; the calls for `tags` (a value type of `buildutil`)
and `nodesep` (a float) are left out. -/
def init : List Registration :=
  [ .UintVar .minlen "minlen" 2 "Minimum edge length (for wider output).",
    .StringVar .nodeshape "nodeshape" "box"
      "graph node shape (see graphvis manpage for valid values)",
    .StringVar .nodestyle "nodestyle" "filled,rounded"
      "graph node style (see graphvis manpage for valid values)",
    .StringVar .rankdir "rankdir" "LR" "Direction of graph layout [LR | RL | TB | BT]" ]

/-- The assignment `*p = v` to a `uint` variable. -/
def UintRef.assign (p : UintRef) (v : Nat) (c : Styling) : Styling :=
  match p with
  | .minlen => { c with minlen := v }

/-- The assignment `*p = v` to a `string` variable. -/
def StringRef.assign (p : StringRef) (v : String) (c : Styling) : Styling :=
  match p with
  | .nodeshape => { c with nodeshape := v }
  | .nodestyle => { c with nodestyle := v }
  | .rankdir => { c with rankdir := v }

/-- Registration stores the default in the variable (`newUintValue`,
`newStringValue` of the flag package). -/
def Registration.register (r : Registration) (c : Styling) : Styling :=
  match r with
  | .UintVar p _ value _ => p.assign value c
  | .StringVar p _ value _ => p.assign value c

/-- The variables after `init` has run, from their zero values. -/
def defaultStyling : Styling :=
  init.foldl (fun c r => r.register c)
    { minlen := 0, nodeshape := "", nodestyle := "", rankdir := "" }

/-- Go's `strconv.lower`: `c | ('x' - 'X')`. -/
def lower (c : Char) : Nat := c.toNat ||| 32

/-- The errors of Go's `strconv.ParseUint`: `ErrSyntax`, `ErrRange`, and the
two errors on its `base` and `bitSize` arguments. -/
inductive NumError where
  | ErrSyntax
  | ErrRange
  | baseError
  | bitSizeError
deriving DecidableEq, Repr

/-- Go's `maxUint64`. -/
def maxUint64 : Nat := 2 ^ 64 - 1

/-- The digit a byte stands for in the loop of `strconv.ParseUint`:
`c - '0'` for a decimal digit, `lower(c) - 'a' + 10` for a letter, `none` in
the `default` branch. -/
def digitVal (c : Char) : Option Nat :=
  if '0' ≤ c ∧ c ≤ '9' then some (c.toNat - '0'.toNat)
  else if 'a'.toNat ≤ lower c ∧ lower c ≤ 'z'.toNat then some (lower c - 'a'.toNat + 10)
  else none

/-- The loop of `strconv.ParseUint` over the bytes left of `s`, from the
accumulator `n` (a `uint64`) and the variable `underscores`; it returns the
value, `underscores` and the error. -/
def parseUintLoop (base : Nat) (base0 : Bool) (cutoff maxVal : Nat) :
    List Char → Nat → Bool → Nat × Bool × Option NumError
  | [], n, underscores => (n, underscores, none)
  | c :: cs, n, underscores =>
    if c = '_' ∧ base0 = true then parseUintLoop base base0 cutoff maxVal cs n true
    else
      match digitVal c with
      | none => (0, underscores, some .ErrSyntax)
      | some d =>
        if d ≥ base then (0, underscores, some .ErrSyntax)
        else if n ≥ cutoff then (maxVal, underscores, some .ErrRange)
        else if (n * base % 2 ^ 64 + d) % 2 ^ 64 < n * base % 2 ^ 64 ∨
            (n * base % 2 ^ 64 + d) % 2 ^ 64 > maxVal then
          (maxVal, underscores, some .ErrRange)
        else
          parseUintLoop base base0 cutoff maxVal cs ((n * base % 2 ^ 64 + d) % 2 ^ 64)
            underscores

/-- The loop of `strconv.underscoreOK` over the bytes left of `s`; `saw` is
the last character seen: `^` beginning, `0` digit, `_` underscore, `!` none of
these. -/
def underscoreLoop (hex : Bool) : List Char → Char → Bool
  | [], saw => saw != '_'
  | c :: cs, saw =>
    if ('0' ≤ c ∧ c ≤ '9') ∨ (hex = true ∧ 'a'.toNat ≤ lower c ∧ lower c ≤ 'f'.toNat) then
      underscoreLoop hex cs '0'
    else if c = '_' then
      if saw ≠ '0' then false else underscoreLoop hex cs '_'
    else if saw = '_' then false
    else underscoreLoop hex cs '!'

/-- The test for a base prefix in `strconv.underscoreOK`: `0b`, `0o` or `0x`,
in either case. -/
def basePrefixed (s : List Char) : Bool :=
  match s with
  | c0 :: c1 :: _ =>
    decide (c0 = '0' ∧ (lower c1 = 'b'.toNat ∨ lower c1 = 'o'.toNat ∨ lower c1 = 'x'.toNat))
  | _ => false

/-- Go's `strconv.underscoreOK`: underscores stand only between digits or
between a base prefix and a digit. -/
def underscoreOK (s0 : List Char) : Bool :=
  let s := if s0.head? = some '-' ∨ s0.head? = some '+' then s0.drop 1 else s0
  if basePrefixed s then
    underscoreLoop (decide ((s.drop 1).head?.map lower = some 'x'.toNat)) (s.drop 2) '0'
  else
    underscoreLoop false s '^'

/-- The part of `strconv.ParseUint` after the switch on `base`: the check of
`bitSize`, the cutoff, the loop and the check of the underscores. `s0` is the
text as given, `s` what is left of it after the base prefix. -/
def parseUintFrom (intSize : Nat) (s0 s : List Char) (base : Nat) (base0 : Bool)
    (bitSize : Int) : Nat × Option NumError :=
  if bitSize < 0 ∨ bitSize > 64 then (0, some .bitSizeError)
  else
    let bits := if bitSize = 0 then intSize else bitSize.toNat
    let r := parseUintLoop base base0 (maxUint64 / base + 1) (2 ^ bits - 1) s 0 false
    match r.2.2 with
    | some e => (r.1, some e)
    | none =>
      if r.2.1 = true ∧ underscoreOK s0 = false then (0, some .ErrSyntax)
      else (r.1, none)

/-- Go's `strconv.ParseUint(s, base, bitSize)`, returning the pair of the Go
function; `intSize` is `strconv.IntSize`, 32 or 64 with the platform. -/
def ParseUint (intSize : Nat) (s : String) (base : Int) (bitSize : Int) :
    Nat × Option NumError :=
  if s = "" then (0, some .ErrSyntax)
  else if 2 ≤ base ∧ base ≤ 36 then
    parseUintFrom intSize s.data s.data base.toNat false bitSize
  else if base = 0 then
    if s.data.head? = some '0' then
      if s.data.length ≥ 3 ∧ (s.data.drop 1).head?.map lower = some 'b'.toNat then
        parseUintFrom intSize s.data (s.data.drop 2) 2 true bitSize
      else if s.data.length ≥ 3 ∧ (s.data.drop 1).head?.map lower = some 'o'.toNat then
        parseUintFrom intSize s.data (s.data.drop 2) 8 true bitSize
      else if s.data.length ≥ 3 ∧ (s.data.drop 1).head?.map lower = some 'x'.toNat then
        parseUintFrom intSize s.data (s.data.drop 2) 16 true bitSize
      else
        parseUintFrom intSize s.data (s.data.drop 1) 8 true bitSize
    else
      parseUintFrom intSize s.data s.data 10 true bitSize
  else (0, some .baseError)

/-- The error a flag's `Set` returns: `errParse` and `errRange` of the flag
package, or the error of `strconv` as it is (`numError`). -/
inductive SetError where
  | errParse
  | errRange
  | other (e : NumError)
deriving DecidableEq, Repr

/-- Go's `flag.numError`. -/
def numError : NumError → SetError
  | .ErrSyntax => .errParse
  | .ErrRange => .errRange
  | e => .other e

/-- Go's `(*uintValue).Set`: `strconv.ParseUint(s, 0, strconv.IntSize)`, the
value converted to `uint` and stored whatever the error, and the error. -/
def uintValueSet (intSize : Nat) (s : String) : Nat × Option SetError :=
  let r := ParseUint intSize s 0 intSize
  (r.1 % 2 ^ intSize, r.2.map numError)

/-- The ways the flag package refuses a flag of the command line: the name is
not registered, or the flag's `Set` refused the value
(`invalid value %q for flag -%s: %v`). -/
inductive FlagError where
  | notDefined (name : String)
  | invalidValue (value name : String) (err : SetError)
deriving DecidableEq, Repr

/-- What the flag package does with `-name value` on the command line, for the
flags of `regs`: it looks the name up and calls the `Set` of the flag's value;
when `Set` returns an error the command line is refused (the process exits
with status 2), otherwise the variable holds the new value. -/
def setFlag (intSize : Nat) (regs : List Registration) (name value : String) (c : Styling) :
    Except FlagError Styling :=
  match regs.find? (fun r => r.name == name) with
  | none => .error (.notDefined name)
  | some (.UintVar p _ _ _) =>
    match (uintValueSet intSize value).2 with
    | some e => .error (.invalidValue value name e)
    | none => .ok (p.assign (uintValueSet intSize value).1 c)
  | some (.StringVar p _ _ _) => .ok (p.assign value c)

/-- The documented domain of `minlen`: a positive integer. -/
def validMinlen (n : Nat) : Bool := decide (1 ≤ n)

/-- The documented domain of `rankdir`: one of `LR`, `RL`, `TB`, `BT`. -/
def validRankdir (s : String) : Bool := decide (s ∈ ["LR", "RL", "TB", "BT"])

/-! ## Vocabulary of the statements -/

/-- The calls `main` makes before it looks at the positional arguments. -/
def preamble (f : Flags) : List Event := if f.debugFlag then [.logSetFlags] else []

/-- The calls `main` makes up to and including the registration of the
handler, when the analysis succeeds. -/
def startup (f : Flags) : List Event :=
  preamble f ++ [.newAnalysis, .DoAnalysis f.callgraphAlgo "" f.testFlag f.args, .HandleFunc "/"]

/-- The events the body of `outputDot` records after its entry: the five
steps, the two log lines and the fatal log line. -/
def Event.inOutputDot : Event → Bool
  | .OptsSetup | .ProcessListArgs | .Render | .WriteFile _ _ _ | .dotToImage _ _ _ => true
  | .logPrint _ | .logFatal _ => true
  | _ => false

/-- The calls after which the program is ready: serving, or writing output. -/
def Event.isReady : Event → Bool
  | .ListenAndServe _ | .outputDot _ _ => true
  | _ => false

/-- A call of `DoAnalysis`, whatever its arguments. -/
def Event.isDoAnalysis : Event → Bool
  | .DoAnalysis _ _ _ _ => true
  | _ => false

/-- The calls that serve, open the browser or write output. -/
def Event.isOutput : Event → Bool
  | .ListenAndServe _ | .goOpenBrowser _ | .outputDot _ _ => true
  | .WriteFile _ _ _ | .dotToImage _ _ _ | .Render => true
  | _ => false

/-- The five steps of `outputDot`: the three calls on the analysis, the write
of the file and the conversion. -/
def Event.isStep : Event → Bool
  | .OptsSetup | .ProcessListArgs | .Render | .WriteFile _ _ _ | .dotToImage _ _ _ => true
  | _ => false

/-- The steps a piece of the program executed when started in the state `w`
and ending as `r`, oldest first. -/
def stepsFrom (w : World) (r : Result Unit) : List Event :=
  (r.trace.drop w.trace.length).filter Event.isStep

/-- The five steps of `outputDot(fname, format)` in the order of the source,
with the arguments the source gives them. -/
def allSteps (env : Env) (fname fmt : String) : List Event :=
  [.OptsSetup, .ProcessListArgs, .Render, .WriteFile (fname ++ ".gv") env.Render.1 0o755,
   .dotToImage fname fmt env.Render.1]

/-- The characters of the claim on well-formed addresses: letters, digits,
`-`, `.` and `_`. -/
def safeChar (c : Char) : Bool :=
  isAlnumByte c || c == '-' || c == '.' || c == '_'

/-! ## Concrete command lines and runs -/

/-- The flag variables of `main.go` at their declared defaults, for a given
value of the constant `CallGraphTypePointer` and given positional arguments. -/
def defaultFlags (CallGraphTypePointer : String) (args : List String) : Flags :=
  { testFlag := false, httpFlag := ":7878", skipBrowser := false, outputFile := "",
    outputFormat := "svg", callgraphAlgo := CallGraphTypePointer, debugFlag := false,
    versionFlag := false, args := args }

/-- A run in which every call succeeds, `Render` returns the bytes of `digraph`
and the server keeps serving. -/
def envAllSucceed : Env :=
  { Version := "dev", DoAnalysis := fun _ _ _ _ => none, ProcessListArgs := none,
    Render := ([100, 105, 103, 114, 97, 112, 104], none), WriteFile := fun _ _ _ => none,
    dotToImage := fun fname fmt _ => (fname ++ "." ++ fmt, none),
    ListenAndServe := fun _ => none }

/-- A run in which the `.gv` file cannot be written; every other call succeeds. -/
def envWriteFails : Env :=
  { envAllSucceed with WriteFile := fun _ _ _ => some ⟨"permission denied"⟩ }

/-- A run in which `DoAnalysis` fails. -/
def envAnalysisFails : Env :=
  { envAllSucceed with DoAnalysis := fun _ _ _ _ => some ⟨"no packages"⟩ }

/-- A run in which `ProcessListArgs` fails. -/
def envListArgsFail : Env :=
  { envAllSucceed with ProcessListArgs := some ⟨"bad list"⟩ }

/-! ## Evaluation lemmas -/

theorem bind_eq {α β : Type} (m : M α) (k : α → M β) (w : World) :
    (m >>= k) w = match m w with
      | .ok a w1 => k a w1
      | .exit c w1 => .exit c w1
      | .blocked w1 => .blocked w1 := rfl

theorem pure_eq {α : Type} (a : α) (w : World) : (pure a : M α) w = .ok a w := rfl

theorem outputDot_eval (env : Env) (fname fmt : String) (w : World) :
    outputDot env fname fmt w =
      match env.ProcessListArgs with
      | some e => .exit 1 { w with trace := w.trace ++
          [.outputDot fname fmt, .OptsSetup, .ProcessListArgs, .logFatal (e.msg ++ "\n")] }
      | none =>
        match env.Render.2 with
        | some e => .exit 1 { w with trace := w.trace ++
            [.outputDot fname fmt, .OptsSetup, .ProcessListArgs, .Render, .logFatal (e.msg ++ "\n")] }
        | none =>
          match env.WriteFile (fname ++ ".gv") env.Render.1 0o755 with
          | some e => .exit 1 { w with trace := w.trace ++
              [.outputDot fname fmt, .OptsSetup, .ProcessListArgs, .Render,
               .logPrint "writing dot output..", .WriteFile (fname ++ ".gv") env.Render.1 0o755,
               .logFatal (e.msg ++ "\n")] }
          | none =>
            match (env.dotToImage fname fmt env.Render.1).2 with
            | some e => .exit 1 { w with trace := w.trace ++
                [.outputDot fname fmt, .OptsSetup, .ProcessListArgs, .Render,
                 .logPrint "writing dot output..", .WriteFile (fname ++ ".gv") env.Render.1 0o755,
                 .logPrint ("converting dot to " ++ fmt ++ "..\n"),
                 .dotToImage fname fmt env.Render.1, .logFatal (e.msg ++ "\n")] }
            | none => .ok () { w with trace := w.trace ++
                [.outputDot fname fmt, .OptsSetup, .ProcessListArgs, .Render,
                 .logPrint "writing dot output..", .WriteFile (fname ++ ".gv") env.Render.1 0o755,
                 .logPrint ("converting dot to " ++ fmt ++ "..\n"),
                 .dotToImage fname fmt env.Render.1] } := by
  unfold outputDot
  cases h1 : env.ProcessListArgs
  · cases h2 : env.Render.2
    · cases h3 : env.WriteFile (fname ++ ".gv") env.Render.1 0o755
      · cases h4 : (env.dotToImage fname fmt env.Render.1).2 <;>
          simp [bind_eq, pure_eq, emit, logFatal, osExit, h1, h2, h3, h4]
      · simp [bind_eq, pure_eq, emit, logFatal, osExit, h1, h2, h3]
    · simp [bind_eq, pure_eq, emit, logFatal, osExit, h1, h2]
  · simp [bind_eq, pure_eq, emit, logFatal, osExit, h1]

theorem run_version (env : Env) (f : Flags) (hv : f.versionFlag = true) :
    run env f = .exit 0 { flags := f, trace := [.stderrPrintln env.Version] } := by
  simp [run, main, bind_eq, pure_eq, emit, osExit, getFlags, hv]

theorem run_usage (env : Env) (f : Flags) (hv : f.versionFlag = false)
    (hn : f.args.length ≠ 1) :
    run env f = .exit 2 ⟨f, preamble f ++ [.stderrPrint Usage, .PrintDefaults]⟩ := by
  cases hd : f.debugFlag <;>
    simp [run, main, bind_eq, pure_eq, emit, osExit, getFlags, hv, hn, hd, preamble]

theorem run_analysis_error (env : Env) (f : Flags) (hv : f.versionFlag = false)
    (hn : f.args.length = 1) (err : GoError)
    (ha : env.DoAnalysis f.callgraphAlgo "" f.testFlag f.args = some err) :
    run env f = .exit 1 ⟨f, preamble f ++
      [.newAnalysis, .DoAnalysis f.callgraphAlgo "" f.testFlag f.args, .logFatal err.msg]⟩ := by
  cases hd : f.debugFlag <;>
    simp [run, main, bind_eq, pure_eq, emit, osExit, logFatal, getFlags, hv, hn, hd, ha, preamble]

theorem run_server (env : Env) (f : Flags) (hv : f.versionFlag = false)
    (hn : f.args.length = 1)
    (ha : env.DoAnalysis f.callgraphAlgo "" f.testFlag f.args = none)
    (hf : f.outputFile = "") :
    run env f =
      match env.ListenAndServe f.httpFlag with
      | some err => .exit 1 ⟨{ f with outputFile := "output" },
          startup f ++
            (if f.skipBrowser then [] else [.goOpenBrowser (parseHTTPAddr f.httpFlag)]) ++
            [.logPrint ("http serving at " ++ parseHTTPAddr f.httpFlag), .ListenAndServe f.httpFlag,
             .logFatal err.msg]⟩
      | none => .blocked ⟨{ f with outputFile := "output" },
          startup f ++
            (if f.skipBrowser then [] else [.goOpenBrowser (parseHTTPAddr f.httpFlag)]) ++
            [.logPrint ("http serving at " ++ parseHTTPAddr f.httpFlag), .ListenAndServe f.httpFlag]⟩ := by
  cases hd : f.debugFlag <;> cases hs : f.skipBrowser <;> cases hl : env.ListenAndServe f.httpFlag <;>
    simp [run, main, bind_eq, pure_eq, emit, osExit, logFatal, block, getFlags, setOutputFile,
      hv, hn, hd, ha, hf, hs, hl, preamble, startup]

theorem run_file (env : Env) (f : Flags) (hv : f.versionFlag = false)
    (hn : f.args.length = 1)
    (ha : env.DoAnalysis f.callgraphAlgo "" f.testFlag f.args = none)
    (hf : f.outputFile ≠ "") :
    run env f = outputDot env f.outputFile f.outputFormat { flags := f, trace := startup f } := by
  cases hd : f.debugFlag <;>
    simp [run, main, bind_eq, pure_eq, emit, osExit, logFatal, block, getFlags, setOutputFile,
      hv, hn, hd, ha, hf, preamble, startup]

/-- The shape of every run of `outputDot`: its entry, then events of its body
only, the flag variables untouched, and an exit, if any, with status 1. -/
theorem outputDot_shape (env : Env) (fname fmt : String) (w : World) :
    ∃ tail, (outputDot env fname fmt w).trace = w.trace ++ Event.outputDot fname fmt :: tail ∧
      (∀ e ∈ tail, e.inOutputDot = true) ∧
      (outputDot env fname fmt w).world.flags = w.flags ∧
      ((outputDot env fname fmt w).exitCode = none ∨
        (outputDot env fname fmt w).exitCode = some 1) := by
  rw [outputDot_eval]
  split
  · exact ⟨_, rfl, by simp [Event.inOutputDot],
      rfl, Or.inr rfl⟩
  · split
    · exact ⟨_, rfl, by simp [Event.inOutputDot],
        rfl, Or.inr rfl⟩
    · split
      · exact ⟨_, rfl, by simp [Event.inOutputDot],
          rfl, Or.inr rfl⟩
      · split
        · exact ⟨_, rfl, by simp [Event.inOutputDot],
            rfl, Or.inr rfl⟩
        · exact ⟨_, rfl, by simp [Event.inOutputDot],
            rfl, Or.inl rfl⟩

/-! ## Mode selection -/

/-- C1. With exactly one positional argument, `-version` unset and a
successful `DoAnalysis`, `main` runs server mode (the output name becomes
`output`, `http.ListenAndServe` is called once on the `-http` address and
`outputDot` is never called) if and only if `-file` is the empty string;
otherwise it runs file mode: `outputDot(file, format)` is called exactly once,
it is the only call of `outputDot`, and neither `http.ListenAndServe` nor
`openBrowser` is called. -/
theorem main_mode_selection (env : Env) (f : Flags)
    (hn : f.args.length = 1) (hv : f.versionFlag = false)
    (ha : env.DoAnalysis f.callgraphAlgo "" f.testFlag f.args = none) :
    (((run env f).world.flags.outputFile = "output" ∧
        (run env f).trace.count (Event.ListenAndServe f.httpFlag) = 1 ∧
        (∀ a b, Event.outputDot a b ∉ (run env f).trace)) ↔ f.outputFile = "") ∧
    (f.outputFile ≠ "" →
        (run env f).trace.count (Event.outputDot f.outputFile f.outputFormat) = 1 ∧
        (∀ a b, Event.outputDot a b ∈ (run env f).trace →
          a = f.outputFile ∧ b = f.outputFormat) ∧
        (∀ a, Event.ListenAndServe a ∉ (run env f).trace) ∧
        (∀ u, Event.goOpenBrowser u ∉ (run env f).trace)) := by
  have file_mode : f.outputFile ≠ "" →
      (run env f).trace.count (Event.outputDot f.outputFile f.outputFormat) = 1 ∧
      (∀ a b, Event.outputDot a b ∈ (run env f).trace →
        a = f.outputFile ∧ b = f.outputFormat) ∧
      (∀ a, Event.ListenAndServe a ∉ (run env f).trace) ∧
      (∀ u, Event.goOpenBrowser u ∉ (run env f).trace) := by
    intro hf
    rw [run_file env f hv hn ha hf]
    obtain ⟨tail, ht, hin, -, -⟩ := outputDot_shape env f.outputFile f.outputFormat
      ⟨f, startup f⟩
    rw [ht]
    have hno : ∀ e, e.inOutputDot = false → e ∉ tail := fun e he hm => by
      have := hin e hm
      simp [he] at this
    refine ⟨?_, ?_, ?_, ?_⟩
    · have h0 : tail.count (Event.outputDot f.outputFile f.outputFormat) = 0 :=
        List.count_eq_zero.mpr (hno _ rfl)
      cases hd : f.debugFlag <;> simp [startup, preamble, hd, h0]
    · intro a b hm
      have h1 := hno (Event.outputDot a b) rfl
      cases hd : f.debugFlag <;> simp [startup, preamble, hd, h1] at hm <;> exact hm
    · intro a
      have h1 := hno (Event.ListenAndServe a) rfl
      cases hd : f.debugFlag <;> simp [startup, preamble, hd, h1]
    · intro u
      have h1 := hno (Event.goOpenBrowser u) rfl
      cases hd : f.debugFlag <;> simp [startup, preamble, hd, h1]
  refine ⟨⟨?_, ?_⟩, file_mode⟩
  · rintro ⟨-, hc, -⟩
    by_contra hf
    have := (file_mode hf).2.2.1 f.httpFlag
    rw [← List.count_eq_zero] at this
    omega
  · intro hf
    rw [run_server env f hv hn ha hf]
    cases hd : f.debugFlag <;> cases hs : f.skipBrowser <;> cases hl : env.ListenAndServe f.httpFlag <;>
      simp [Result.world, Result.trace, startup, preamble, hd, hs]

/-! ## The package argument -/

/-- C6. With `-version` unset and a number of positional arguments other than
one, `main` prints the usage text, then the flag defaults, and exits with
status 2; nothing else happens but the optional `log.SetFlags` of `-debug`: no
analysis is created, `DoAnalysis` is not called, nothing is served or written.
With exactly one positional argument this exit is not taken: the usage is not
printed and the status is never 2. -/
theorem exactly_one_package_argument (env : Env) (f : Flags) (hv : f.versionFlag = false) :
    (f.args.length ≠ 1 →
      run env f = .exit 2 ⟨f, preamble f ++ [.stderrPrint Usage, .PrintDefaults]⟩ ∧
      (∀ e ∈ (run env f).trace,
        e = .logSetFlags ∨ e = .stderrPrint Usage ∨ e = .PrintDefaults)) ∧
    (f.args.length = 1 →
      (run env f).exitCode ≠ some 2 ∧
      Event.stderrPrint Usage ∉ (run env f).trace ∧
      Event.PrintDefaults ∉ (run env f).trace) := by
  constructor
  · intro hn
    rw [run_usage env f hv hn]
    refine ⟨rfl, ?_⟩
    cases hd : f.debugFlag <;> simp [Result.trace, Result.world, preamble, hd]
  · intro hn
    cases ha : env.DoAnalysis f.callgraphAlgo "" f.testFlag f.args with
    | some err =>
      rw [run_analysis_error env f hv hn err ha]
      cases hd : f.debugFlag <;> simp [Result.trace, Result.world, Result.exitCode, preamble, hd]
    | none =>
      by_cases hf : f.outputFile = ""
      · rw [run_server env f hv hn ha hf]
        cases hd : f.debugFlag <;> cases hs : f.skipBrowser <;>
          cases hl : env.ListenAndServe f.httpFlag <;>
          simp [Result.world, Result.trace, Result.exitCode, startup, preamble, hd, hs]
      · rw [run_file env f hv hn ha hf]
        obtain ⟨tail, ht, hin, -, hx⟩ := outputDot_shape env f.outputFile f.outputFormat
          ⟨f, startup f⟩
        rw [ht]
        have hno : ∀ e, e.inOutputDot = false → e ∉ tail := fun e he hm => by
          have := hin e hm
          simp [he] at this
        refine ⟨?_, ?_, ?_⟩
        · rcases hx with hx | hx <;> simp [hx]
        · have h1 := hno (Event.stderrPrint Usage) rfl
          cases hd : f.debugFlag <;> simp [startup, preamble, hd, h1]
        · have h1 := hno Event.PrintDefaults rfl
          cases hd : f.debugFlag <;> simp [startup, preamble, hd, h1]

/-! ## The analysis comes first -/

/-- C4. In every run of `main` that reaches `http.ListenAndServe` or
`outputDot`, `DoAnalysis` returned no error and was called exactly once, with
the selected algorithm, the `-tests` value and the positional arguments,
before any of those calls and before the browser goroutine is started. When
`DoAnalysis` returns an error `main` logs it and exits with status 1, and the
run has no serving, no browser and no output call. -/
theorem analysis_precedes_readiness (env : Env) (f : Flags) :
    ((∃ e ∈ (run env f).trace, e.isReady = true) →
      env.DoAnalysis f.callgraphAlgo "" f.testFlag f.args = none ∧
      ∃ pre post, (run env f).trace =
          pre ++ Event.DoAnalysis f.callgraphAlgo "" f.testFlag f.args :: post ∧
        (∀ e ∈ pre, e.isReady = false ∧ e.isDoAnalysis = false ∧ e.isOutput = false) ∧
        (∀ e ∈ post, e.isDoAnalysis = false)) ∧
    (∀ err, f.versionFlag = false → f.args.length = 1 →
      env.DoAnalysis f.callgraphAlgo "" f.testFlag f.args = some err →
      (run env f).exitCode = some 1 ∧
      (run env f).trace.getLast? = some (Event.logFatal err.msg) ∧
      (∀ e ∈ (run env f).trace, e.isOutput = false)) := by
  constructor
  · intro h
    cases hv : f.versionFlag with
    | true =>
      rw [run_version env f hv] at h
      simp [Result.trace, Result.world, Event.isReady] at h
    | false =>
      by_cases hn : f.args.length = 1
      · cases ha : env.DoAnalysis f.callgraphAlgo "" f.testFlag f.args with
        | some err =>
          rw [run_analysis_error env f hv hn err ha] at h
          cases hd : f.debugFlag <;>
            simp [Result.trace, Result.world, preamble, hd, Event.isReady] at h
        | none =>
          refine ⟨rfl, preamble f ++ [.newAnalysis], ?_⟩
          by_cases hf : f.outputFile = ""
          · rw [run_server env f hv hn ha hf]
            cases hl : env.ListenAndServe f.httpFlag with
            | some err =>
              refine ⟨_, by simp [Result.trace, Result.world, startup]; rfl, ?_, ?_⟩
              · cases hd : f.debugFlag <;>
                  simp [preamble, hd, Event.isReady, Event.isDoAnalysis, Event.isOutput]
              · cases hs : f.skipBrowser <;> simp [Event.isDoAnalysis]
            | none =>
              refine ⟨_, by simp [Result.trace, Result.world, startup]; rfl, ?_, ?_⟩
              · cases hd : f.debugFlag <;>
                  simp [preamble, hd, Event.isReady, Event.isDoAnalysis, Event.isOutput]
              · cases hs : f.skipBrowser <;> simp [Event.isDoAnalysis]
          · rw [run_file env f hv hn ha hf]
            obtain ⟨tail, ht, hin, -, -⟩ := outputDot_shape env f.outputFile f.outputFormat
              ⟨f, startup f⟩
            rw [ht]
            refine ⟨.HandleFunc "/" :: .outputDot f.outputFile f.outputFormat :: tail,
              by simp [startup], ?_, ?_⟩
            · cases hd : f.debugFlag <;>
                simp [preamble, hd, Event.isReady, Event.isDoAnalysis, Event.isOutput]
            · intro e he
              simp only [List.mem_cons] at he
              rcases he with he | he | he
              · subst he; rfl
              · subst he; rfl
              · have := hin e he
                cases e <;> simp_all [Event.inOutputDot, Event.isDoAnalysis]
      · rw [run_usage env f hv hn] at h
        cases hd : f.debugFlag <;>
          simp [Result.trace, Result.world, preamble, hd, Event.isReady] at h
  · intro err hv hn ha
    rw [run_analysis_error env f hv hn err ha]
    cases hd : f.debugFlag <;>
      simp [Result.trace, Result.world, Result.exitCode, preamble, hd, Event.isOutput]

/-! ## File mode: `outputDot` -/

/-- C3. The steps of `outputDot` run in the order `OptsSetup`,
`ProcessListArgs`, `Render`, write of the `.gv` file, `dotToImage`; when
`ProcessListArgs`, `Render`, the write or `dotToImage` returns an error the
error is logged as the last event, the process exits with status 1 and the
steps executed are exactly those up to the failing one; when all succeed the
five steps are executed and `outputDot` returns. A failing `ProcessListArgs`
or `Render` leaves no write and no `dotToImage` call. -/
theorem outputDot_aborts_on_first_error (env : Env) (fname fmt : String) (w : World) :
    (∀ e, env.ProcessListArgs = some e →
      (outputDot env fname fmt w).exitCode = some 1 ∧
      (outputDot env fname fmt w).trace.getLast? = some (.logFatal (e.msg ++ "\n")) ∧
      stepsFrom w (outputDot env fname fmt w) = (allSteps env fname fmt).take 2) ∧
    (∀ e, env.ProcessListArgs = none → env.Render.2 = some e →
      (outputDot env fname fmt w).exitCode = some 1 ∧
      (outputDot env fname fmt w).trace.getLast? = some (.logFatal (e.msg ++ "\n")) ∧
      stepsFrom w (outputDot env fname fmt w) = (allSteps env fname fmt).take 3) ∧
    (∀ e, env.ProcessListArgs = none → env.Render.2 = none →
      env.WriteFile (fname ++ ".gv") env.Render.1 0o755 = some e →
      (outputDot env fname fmt w).exitCode = some 1 ∧
      (outputDot env fname fmt w).trace.getLast? = some (.logFatal (e.msg ++ "\n")) ∧
      stepsFrom w (outputDot env fname fmt w) = (allSteps env fname fmt).take 4) ∧
    (∀ e, env.ProcessListArgs = none → env.Render.2 = none →
      env.WriteFile (fname ++ ".gv") env.Render.1 0o755 = none →
      (env.dotToImage fname fmt env.Render.1).2 = some e →
      (outputDot env fname fmt w).exitCode = some 1 ∧
      (outputDot env fname fmt w).trace.getLast? = some (.logFatal (e.msg ++ "\n")) ∧
      stepsFrom w (outputDot env fname fmt w) = allSteps env fname fmt) ∧
    (env.ProcessListArgs = none → env.Render.2 = none →
      env.WriteFile (fname ++ ".gv") env.Render.1 0o755 = none →
      (env.dotToImage fname fmt env.Render.1).2 = none →
      (outputDot env fname fmt w).exitCode = none ∧
      (∀ s, Event.logFatal s ∉ (outputDot env fname fmt w).trace.drop w.trace.length) ∧
      stepsFrom w (outputDot env fname fmt w) = allSteps env fname fmt) ∧
    (env.ProcessListArgs ≠ none ∨ env.Render.2 ≠ none →
      ∀ e ∈ (outputDot env fname fmt w).trace.drop w.trace.length,
        (∀ n d m, e ≠ .WriteFile n d m) ∧ (∀ a b d, e ≠ .dotToImage a b d)) := by
  refine ⟨?_, ?_, ?_, ?_, ?_, ?_⟩
  · intro e h1
    rw [outputDot_eval]
    simp [h1, Result.exitCode, Result.trace, Result.world, stepsFrom, allSteps, Event.isStep]
  · intro e h1 h2
    rw [outputDot_eval]
    simp [h1, h2, Result.exitCode, Result.trace, Result.world, stepsFrom, allSteps,
      Event.isStep]
  · intro e h1 h2 h3
    rw [outputDot_eval]
    simp [h1, h2, h3, Result.exitCode, Result.trace, Result.world, stepsFrom, allSteps,
      Event.isStep]
  · intro e h1 h2 h3 h4
    rw [outputDot_eval]
    simp [h1, h2, h3, h4, Result.exitCode, Result.trace, Result.world, stepsFrom, allSteps,
      Event.isStep]
  · intro h1 h2 h3 h4
    rw [outputDot_eval]
    simp [h1, h2, h3, h4, Result.exitCode, Result.trace, Result.world, stepsFrom, allSteps,
      Event.isStep]
  · intro h
    rw [outputDot_eval]
    cases h1 : env.ProcessListArgs with
    | some e1 => simp [Result.trace, Result.world]
    | none =>
      cases h2 : env.Render.2 with
      | some e2 => simp [Result.trace, Result.world]
      | none => simp [h1, h2] at h

/-- C2, as stated, fails: `Render` returned its bytes successfully, the write
of `out.gv` was attempted with exactly those bytes, the write failed, and
`dotToImage` was never called. -/
theorem outputDot_write_failure_skips_dotToImage :
    envWriteFails.ProcessListArgs = none ∧
    envWriteFails.Render = ([100, 105, 103, 114, 97, 112, 104], none) ∧
    Event.WriteFile "out.gv" [100, 105, 103, 114, 97, 112, 104] 0o755 ∈
      (outputDot envWriteFails "out" "svg" ⟨defaultFlags "pointer" ["."], []⟩).trace ∧
    (∀ a b d, Event.dotToImage a b d ∉
      (outputDot envWriteFails "out" "svg" ⟨defaultFlags "pointer" ["."], []⟩).trace) ∧
    (outputDot envWriteFails "out" "svg" ⟨defaultFlags "pointer" ["."], []⟩).exitCode =
      some 1 := by
  rw [outputDot_eval]
  simp [envWriteFails, envAllSucceed, Result.trace, Result.world, Result.exitCode]

/-- C2, amended. When `ProcessListArgs` succeeds and `Render` returns the bytes
`out` without error, `outputDot(fname, format)` calls `Render` exactly once
and then `ioutil.WriteFile` exactly once, on the name `fname` followed by
`.gv`, with exactly `out` and mode 0755; when that write returns no error the
next and last step is `dotToImage(fname, format, out)`; when the write
returns an error the process exits with status 1 and `dotToImage` is not
called. -/
theorem outputDot_writes_render_output (env : Env) (fname fmt : String) (w : World)
    (out : List UInt8) (h1 : env.ProcessListArgs = none) (h2 : env.Render = (out, none)) :
    (stepsFrom w (outputDot env fname fmt w)).take 4 =
      [.OptsSetup, .ProcessListArgs, .Render, .WriteFile (fname ++ ".gv") out 0o755] ∧
    (stepsFrom w (outputDot env fname fmt w)).count .Render = 1 ∧
    (∀ n d m, Event.WriteFile n d m ∈ stepsFrom w (outputDot env fname fmt w) →
      n = fname ++ ".gv" ∧ d = out ∧ m = 0o755) ∧
    (env.WriteFile (fname ++ ".gv") out 0o755 = none →
      stepsFrom w (outputDot env fname fmt w) =
        [.OptsSetup, .ProcessListArgs, .Render, .WriteFile (fname ++ ".gv") out 0o755,
         .dotToImage fname fmt out]) ∧
    (∀ e, env.WriteFile (fname ++ ".gv") out 0o755 = some e →
      (outputDot env fname fmt w).exitCode = some 1 ∧
      stepsFrom w (outputDot env fname fmt w) =
        [.OptsSetup, .ProcessListArgs, .Render, .WriteFile (fname ++ ".gv") out 0o755]) := by
  have h21 : env.Render.1 = out := by rw [h2]
  have h22 : env.Render.2 = none := by rw [h2]
  rw [outputDot_eval]
  cases h3 : env.WriteFile (fname ++ ".gv") out 0o755 with
  | some e =>
    simp [h1, h21, h22, h3, Result.exitCode, Result.trace, Result.world, stepsFrom,
      Event.isStep]
  | none =>
    cases h4 : (env.dotToImage fname fmt out).2 <;>
      simp [h1, h21, h22, h3, h4, Result.exitCode, Result.trace, Result.world, stepsFrom,
        Event.isStep]

/-- C2, amended, at a run in which every call succeeds. -/
theorem outputDot_writes_render_output_witness :
    (stepsFrom ⟨defaultFlags "pointer" ["."], []⟩
        (outputDot envAllSucceed "out" "svg" ⟨defaultFlags "pointer" ["."], []⟩)).take 4 =
      [.OptsSetup, .ProcessListArgs, .Render,
       .WriteFile ("out" ++ ".gv") [100, 105, 103, 114, 97, 112, 104] 0o755] :=
  (outputDot_writes_render_output envAllSucceed "out" "svg" ⟨defaultFlags "pointer" ["."], []⟩
    [100, 105, 103, 114, 97, 112, 104] rfl rfl).1

/-! ## Address normalisation -/

theorem escapeHostChar_safe (c : Char) (h : shouldEscapeHost c = false) :
    escapeHostChar c = [c] := by
  simp [escapeHostChar, h]

theorem shouldEscapeHost_safe (c : Char) (h : safeChar c = true) :
    shouldEscapeHost c = false := by
  unfold safeChar at h
  unfold shouldEscapeHost
  by_cases ha : isAlnumByte c = true
  · simp [ha]
  · simp only [ha, Bool.false_or, Bool.or_eq_true, beq_iff_eq] at h
    rcases h with (h | h) | h <;> subst h <;> simp [ha]

theorem flatMap_escapeHostChar (l : List Char) (h : ∀ c ∈ l, shouldEscapeHost c = false) :
    l.flatMap escapeHostChar = l := by
  induction l with
  | nil => rfl
  | cons x xs ih =>
    have hx := escapeHostChar_safe x (h x (List.mem_cons_self _ _))
    have hxs := ih (fun c hc => h c (List.mem_cons_of_mem _ hc))
    simp [List.flatMap_cons, hx, hxs]

theorem escapeHost_id (s : String) (h : ∀ c ∈ s.data, shouldEscapeHost c = false) :
    escapeHost s = s := by
  unfold escapeHost
  rw [flatMap_escapeHostChar _ h]

theorem parseHTTPAddr_eq (addr : String) :
    parseHTTPAddr addr = "http://" ++ escapeHost
      ((if (SplitHostPort addr).1 = "" then "localhost" else (SplitHostPort addr).1) ++ ":" ++
        (if (SplitHostPort addr).2.1 = "" then "80" else (SplitHostPort addr).2.1)) := by
  unfold parseHTTPAddr URL.String
  have hne : ∀ a b : String, a ++ ":" ++ b ≠ "" := by
    intro a b hab
    have := congrArg String.length hab
    simp [String.length_append] at this
    exact absurd this.1.2 (by decide)
  simp only [hne, ne_eq, not_false_eq_true, or_true, ite_true, true_or,
    show ("http" : String) ≠ "" by decide]
  rw [← String.append_assoc]
  rfl

theorem indexByte_isSome (s : List Char) (c : Char) :
    (indexByte s c).isSome = true ↔ c ∈ s := by
  induction s with
  | nil => simp [indexByte]
  | cons x xs ih =>
    unfold indexByte
    by_cases hx : x = c
    · simp [hx]
    · have hx2 : ¬ c = x := fun h => hx h.symm
      simp [hx, hx2, ← ih]

theorem lastIndexByte_none (s : List Char) (c : Char) :
    lastIndexByte s c = none ↔ c ∉ s := by
  induction s with
  | nil => simp [lastIndexByte]
  | cons x xs ih =>
    unfold lastIndexByte
    cases h : lastIndexByte xs c with
    | some j =>
      have : c ∈ xs := by
        by_contra hc
        rw [ih.mpr hc] at h
        cases h
      simp [this]
    | none =>
      have hc := ih.mp h
      by_cases hx : x = c
      · simp [hx]
      · have hx2 : ¬ c = x := fun h => hx h.symm
        simp [hx, hx2, hc]

theorem lastIndexByte_count (s : List Char) (c : Char) (i : Nat)
    (h : lastIndexByte s c = some i) : (s.take i).count c + 1 = s.count c := by
  induction s generalizing i with
  | nil => simp [lastIndexByte] at h
  | cons x xs ih =>
    unfold lastIndexByte at h
    cases hl : lastIndexByte xs c with
    | some j =>
      rw [hl] at h
      simp only [Option.some.injEq] at h
      subst h
      have := ih j hl
      simp only [List.take_succ_cons, List.count_cons]
      omega
    | none =>
      rw [hl] at h
      by_cases hx : x = c
      · simp only [hx, ite_true, Option.some.injEq] at h
        subst h
        have hc := (lastIndexByte_none xs c).mp hl
        simp [List.count_cons, hx, List.count_eq_zero.mpr hc]
      · simp [hx] at h

/-- When `net.SplitHostPort` returns an error it returns the empty host and
the empty port with it. -/
theorem SplitHostPort_error (addr : String) (h : (SplitHostPort addr).2.2 ≠ none) :
    (SplitHostPort addr).1 = "" ∧ (SplitHostPort addr).2.1 = "" := by
  unfold SplitHostPort splitTail addrErr at *
  repeat' split at h
  all_goals first
    | exact absurd rfl h
    | simp_all

/-- An address without a colon is rejected: `missing port in address`. -/
theorem SplitHostPort_no_colon (addr : String) (h : ':' ∉ addr.data) :
    SplitHostPort addr = addrErr addr "missing port in address" := by
  unfold SplitHostPort
  rw [(lastIndexByte_none _ _).mpr h]

/-- An address that does not open with `[` and has two colons or more is
rejected: `too many colons in address`. -/
theorem SplitHostPort_too_many_colons (addr : String) (hb : addr.data.head? ≠ some '[')
    (h : 2 ≤ addr.data.count ':') :
    SplitHostPort addr = addrErr addr "too many colons in address" := by
  unfold SplitHostPort
  cases hl : lastIndexByte addr.data ':' with
  | none =>
    have := (lastIndexByte_none _ _).mp hl
    rw [List.count_eq_zero.mpr this] at h
    omega
  | some i =>
    have hc := lastIndexByte_count _ _ _ hl
    have hm : ':' ∈ addr.data.take i := by
      rw [← List.count_pos_iff]
      omega
    simp [hb, (indexByte_isSome _ _).mpr hm]

/-- C8. When `net.SplitHostPort` splits `addr` without error into the host `h`
and the port `p`, both made of letters, digits, `-`, `.` and `_` only,
`parseHTTPAddr(addr)` is `http://`, then `h` or `localhost` when `h` is empty,
then `:`, then `p` or `80` when `p` is empty. The default of `-http` is
`:7878` and yields `http://localhost:7878`. -/
theorem parseHTTPAddr_wellformed :
    (∀ addr h p : String, SplitHostPort addr = (h, p, none) →
      (∀ c ∈ h.data, safeChar c = true) → (∀ c ∈ p.data, safeChar c = true) →
      parseHTTPAddr addr =
        "http://" ++ (if h = "" then "localhost" else h) ++ ":" ++
          (if p = "" then "80" else p)) ∧
    (∀ algo args, (defaultFlags algo args).httpFlag = ":7878") ∧
    parseHTTPAddr ":7878" = "http://localhost:7878" := by
  refine ⟨?_, fun _ _ => rfl, by decide⟩
  intro addr h p hs hh hp
  rw [parseHTTPAddr_eq, hs]
  have hh2 : ∀ c ∈ (if h = "" then "localhost" else h).data, shouldEscapeHost c = false := by
    by_cases he : h = ""
    · simp only [he, ite_true]
      decide
    · simp only [he, ite_false]
      exact fun c hc => shouldEscapeHost_safe c (hh c hc)
  have hp2 : ∀ c ∈ (if p = "" then "80" else p).data, shouldEscapeHost c = false := by
    by_cases he : p = ""
    · simp only [he, ite_true]
      decide
    · simp only [he, ite_false]
      exact fun c hc => shouldEscapeHost_safe c (hp c hc)
  rw [escapeHost_id]
  · simp only [String.append_assoc]
  · intro c hc
    simp only [String.data_append, List.mem_append] at hc
    rcases hc with (hc | hc) | hc
    · exact hh2 c hc
    · have : c = ':' := by simpa using hc
      subst this
      decide
    · exact hp2 c hc

/-- C8 at the address `example.com:8080`. -/
theorem parseHTTPAddr_wellformed_witness :
    parseHTTPAddr "example.com:8080" = "http://example.com:8080" :=
  parseHTTPAddr_wellformed.1 "example.com:8080" "example.com" "8080" (by decide) (by decide)
    (by decide)

/-- C9. When `net.SplitHostPort` rejects `addr` the error is dropped and
`parseHTTPAddr(addr)` is exactly `http://localhost:80`; it rejects every
address without a colon and every address with two colons or more that does
not open with `[`, an unbracketed IPv6 literal among them. For every `addr`
the result starts with `http://` and is not empty. -/
theorem parseHTTPAddr_fallback :
    (∀ addr, (SplitHostPort addr).2.2 ≠ none → parseHTTPAddr addr = "http://localhost:80") ∧
    (∀ addr, ':' ∉ addr.data → (SplitHostPort addr).2.2 ≠ none) ∧
    (∀ addr, addr.data.head? ≠ some '[' → 2 ≤ addr.data.count ':' →
      (SplitHostPort addr).2.2 ≠ none) ∧
    parseHTTPAddr "" = "http://localhost:80" ∧
    parseHTTPAddr "example.com" = "http://localhost:80" ∧
    parseHTTPAddr "a:b:c" = "http://localhost:80" ∧
    parseHTTPAddr "fe80::1" = "http://localhost:80" ∧
    (∀ addr, ∃ rest, parseHTTPAddr addr = "http://" ++ rest) ∧
    (∀ addr, parseHTTPAddr addr ≠ "") := by
  refine ⟨?_, ?_, ?_, by decide, by decide, by decide, by decide, ?_, ?_⟩
  · intro addr h
    obtain ⟨h1, h2⟩ := SplitHostPort_error addr h
    rw [parseHTTPAddr_eq, h1, h2]
    decide
  · intro addr h
    rw [SplitHostPort_no_colon addr h]
    simp [addrErr]
  · intro addr hb h
    rw [SplitHostPort_too_many_colons addr hb h]
    simp [addrErr]
  · intro addr
    exact ⟨_, parseHTTPAddr_eq addr⟩
  · intro addr h
    have := congrArg String.length h
    rw [parseHTTPAddr_eq, String.length_append] at this
    have h7 : ("http://" : String).length = 7 := by decide
    rw [h7] at this
    have h0 : ("" : String).length = 0 := rfl
    omega

/-- C9 at the address `localhost`, which has no colon. -/
theorem parseHTTPAddr_fallback_witness :
    parseHTTPAddr "localhost" = "http://localhost:80" :=
  parseHTTPAddr_fallback.1 "localhost" (parseHTTPAddr_fallback.2.1 "localhost" (by decide))

/-! ## Styling options -/

theorem parseUintLoop_le (base : Nat) (base0 : Bool) (cutoff maxVal : Nat) (l : List Char) :
    ∀ n u, n ≤ maxVal → (parseUintLoop base base0 cutoff maxVal l n u).2.2 = none →
      (parseUintLoop base base0 cutoff maxVal l n u).1 ≤ maxVal := by
  induction l with
  | nil => intro n u hn _; simpa [parseUintLoop] using hn
  | cons c cs ih =>
    intro n u hn h
    rw [parseUintLoop] at h ⊢
    by_cases hc : c = '_' ∧ base0 = true
    · simp only [if_pos hc] at h ⊢
      exact ih n true hn h
    · simp only [if_neg hc] at h ⊢
      cases hd : digitVal c with
      | none => simp [hd] at h
      | some d =>
        simp only [hd] at h ⊢
        by_cases h1 : d ≥ base
        · simp only [if_pos h1] at h
          exact absurd h (by simp)
        · simp only [if_neg h1] at h ⊢
          by_cases h2 : n ≥ cutoff
          · simp only [if_pos h2] at h
            exact absurd h (by simp)
          · simp only [if_neg h2] at h ⊢
            by_cases h3 : (n * base % 2 ^ 64 + d) % 2 ^ 64 < n * base % 2 ^ 64 ∨
                (n * base % 2 ^ 64 + d) % 2 ^ 64 > maxVal
            · simp only [if_pos h3] at h
              exact absurd h (by simp)
            · simp only [if_neg h3] at h ⊢
              exact ih _ u (by omega) h

theorem parseUintFrom_lt (intSize : Nat) (s0 s : List Char) (base : Nat) (base0 : Bool)
    (h : (parseUintFrom intSize s0 s base base0 intSize).2 = none) :
    (parseUintFrom intSize s0 s base base0 intSize).1 < 2 ^ intSize := by
  unfold parseUintFrom at h ⊢
  have hbits : (if (intSize : Int) = 0 then intSize else (intSize : Int).toNat) = intSize := by
    split <;> simp
  simp only [hbits] at h ⊢
  have hpos : 0 < 2 ^ intSize := Nat.two_pow_pos intSize
  split
  · rename_i hb; rw [if_pos hb] at h; simp at h
  · rename_i hb
    rw [if_neg hb] at h
    cases he : (parseUintLoop base base0 (maxUint64 / base + 1) (2 ^ intSize - 1) s 0 false).2.2 with
    | some e => simp [he] at h
    | none =>
      have hle := parseUintLoop_le base base0 (maxUint64 / base + 1) (2 ^ intSize - 1) s 0 false
        (Nat.zero_le _) he
      simp only [he] at h ⊢
      split
      · exact hpos
      · omega

/-- Every value `strconv.ParseUint(s, 0, IntSize)` returns without error fits
`uint`. -/
theorem ParseUint_lt (intSize : Nat) (s : String)
    (h : (ParseUint intSize s 0 intSize).2 = none) :
    (ParseUint intSize s 0 intSize).1 < 2 ^ intSize := by
  have hform : ParseUint intSize s 0 intSize = (0, some .ErrSyntax) ∨
      ∃ s1 base, ParseUint intSize s 0 intSize =
        parseUintFrom intSize s.data s1 base true intSize := by
    unfold ParseUint
    simp only [show ¬ ((2 : Int) ≤ 0 ∧ (0 : Int) ≤ 36) by omega, if_false, if_true]
    repeat' split
    all_goals first
      | exact Or.inl rfl
      | exact Or.inr ⟨_, _, rfl⟩
  rcases hform with h1 | ⟨s1, base, h1⟩
  · rw [h1] at h
    simp at h
  · rw [h1] at h ⊢
    exact parseUintFrom_lt _ _ _ _ _ h

theorem digitVal_digitChar : ∀ m, m < 10 →
    digitVal (Nat.digitChar m) = some m ∧ Nat.digitChar m ≠ '_' := by
  decide

theorem digitChar_ne_zero : ∀ m, m < 10 → 0 < m → Nat.digitChar m ≠ '0' := by
  decide

/-- The loop of `strconv.ParseUint` reads the decimal digits `Nat.toDigitsCore`
writes for `n` back as `n`. -/
theorem parseUintLoop_toDigitsCore (base0 : Bool) (maxVal : Nat) (hmax : maxVal ≤ maxUint64)
    (fuel : Nat) : ∀ n ds u, n < fuel → n ≤ maxVal →
      parseUintLoop 10 base0 (maxUint64 / 10 + 1) maxVal (Nat.toDigitsCore 10 fuel n ds) 0 u =
        parseUintLoop 10 base0 (maxUint64 / 10 + 1) maxVal ds n u := by
  have step : ∀ q r ds u, r < 10 → q * 10 + r ≤ maxVal →
      parseUintLoop 10 base0 (maxUint64 / 10 + 1) maxVal (Nat.digitChar r :: ds) q u =
        parseUintLoop 10 base0 (maxUint64 / 10 + 1) maxVal ds (q * 10 + r) u := by
    intro q r ds u hr hq
    obtain ⟨hd, hu⟩ := digitVal_digitChar r hr
    have hm : maxUint64 = 2 ^ 64 - 1 := rfl
    have h64 : (2 : Nat) ^ 64 = 18446744073709551616 := by norm_num
    rw [parseUintLoop]
    simp only [hu, false_and, if_false, hd]
    have h1 : ¬ r ≥ 10 := by omega
    have h2 : ¬ q ≥ maxUint64 / 10 + 1 := by omega
    have h3 : q * 10 % 2 ^ 64 = q * 10 := Nat.mod_eq_of_lt (by omega)
    have h4 : (q * 10 + r) % 2 ^ 64 = q * 10 + r := Nat.mod_eq_of_lt (by omega)
    have h5 : ¬ (q * 10 + r < q * 10 ∨ q * 10 + r > maxVal) := by omega
    simp only [h1, h2, h3, h4, h5, if_false]
  induction fuel with
  | zero => intro n ds u hn; omega
  | succ fuel ih =>
    intro n ds u hn hle
    rw [Nat.toDigitsCore]
    have hr : n % 10 < 10 := Nat.mod_lt _ (by decide)
    have hdm := Nat.div_add_mod n 10
    by_cases hq : n / 10 = 0
    · simp only [hq, if_true]
      have := step 0 (n % 10) ds u hr (by omega)
      have hn' : 0 * 10 + n % 10 = n := by omega
      rw [hn'] at this
      exact this
    · simp only [hq, if_false]
      rw [ih (n / 10) _ u (by omega) (by omega)]
      have := step (n / 10) (n % 10) ds u hr (by omega)
      have hn' : n / 10 * 10 + n % 10 = n := by omega
      rw [hn'] at this
      exact this

theorem toDigitsCore_head (fuel : Nat) : ∀ n ds, n < fuel → 0 < n →
    ∃ m, m < 10 ∧ 0 < m ∧ ∃ tl, Nat.toDigitsCore 10 fuel n ds = Nat.digitChar m :: tl := by
  induction fuel with
  | zero => intro n ds hn; omega
  | succ fuel ih =>
    intro n ds hn hpos
    rw [Nat.toDigitsCore]
    have hr : n % 10 < 10 := Nat.mod_lt _ (by decide)
    by_cases hq : n / 10 = 0
    · simp only [hq, if_true]
      exact ⟨n % 10, hr, by omega, ds, rfl⟩
    · simp only [hq, if_false]
      exact ih (n / 10) _ (by omega) (by omega)

/-- The decimal numeral of every `n` that fits `uint` is parsed, by
`strconv.ParseUint(s, 0, IntSize)`, as `n`. -/
theorem ParseUint_repr (intSize : Nat) (hs : intSize ≤ 64) (n : Nat) (hn : n < 2 ^ intSize) :
    ParseUint intSize (Nat.repr n) 0 intSize = (n, none) := by
  have hbits : (if (intSize : Int) = 0 then intSize else (intSize : Int).toNat) = intSize := by
    split <;> simp
  have hsz : ¬ ((intSize : Int) < 0 ∨ (intSize : Int) > 64) := by omega
  have hmax : 2 ^ intSize - 1 ≤ maxUint64 := by
    have : 2 ^ intSize ≤ 2 ^ 64 := Nat.pow_le_pow_right (by decide) hs
    unfold maxUint64
    omega
  by_cases h0 : n = 0
  · subst h0
    have : Nat.repr 0 = "0" := by decide
    rw [this]
    simp [ParseUint, parseUintFrom, hs, hbits, parseUintLoop]
  · obtain ⟨m, hm, hmpos, tl, htl⟩ := toDigitsCore_head (n + 1) n [] (by omega) (by omega)
    have hdata : (Nat.repr n).data = Nat.toDigitsCore 10 (n + 1) n [] := rfl
    have hne : Nat.repr n ≠ "" := by
      intro h
      have := congrArg String.data h
      rw [hdata, htl] at this
      simp at this
    have hhead : (Nat.repr n).data.head? ≠ some '0' := by
      rw [hdata, htl]
      simpa using digitChar_ne_zero m hm hmpos
    unfold ParseUint
    simp only [hne, if_false, show ¬ ((2 : Int) ≤ 0 ∧ (0 : Int) ≤ 36) by omega, if_true, hhead]
    unfold parseUintFrom
    simp only [hsz, if_false, hbits, hdata]
    rw [parseUintLoop_toDigitsCore true _ hmax (n + 1) n [] false (by omega) (by omega)]
    simp [parseUintLoop]

/-- A text that opens with a sign is refused by
`strconv.ParseUint(s, 0, IntSize)`: a syntax error. -/
theorem ParseUint_sign (intSize : Nat) (hs : intSize ≤ 64) (s : String)
    (h : s.data.head? = some '+' ∨ s.data.head? = some '-') :
    (ParseUint intSize s 0 intSize).2 = some .ErrSyntax := by
  have hsz : ¬ ((intSize : Int) < 0 ∨ (intSize : Int) > 64) := by omega
  obtain ⟨c, tl, hd, hc⟩ : ∃ c tl, s.data = c :: tl ∧ (c = '+' ∨ c = '-') := by
    cases hdat : s.data with
    | nil => simp [hdat] at h
    | cons c tl => exact ⟨c, tl, rfl, by simpa [hdat, eq_comm] using h⟩
  have hne : s ≠ "" := by
    intro h0
    rw [h0] at hd
    simp at hd
  have hhead : s.data.head? ≠ some '0' := by
    rw [hd]
    rcases hc with hc | hc <;> subst hc <;> simp
  have hdig : digitVal c = none ∧ c ≠ '_' := by
    rcases hc with hc | hc <;> subst hc <;> decide
  unfold ParseUint
  simp only [hne, if_false, show ¬ ((2 : Int) ≤ 0 ∧ (0 : Int) ≤ 36) by omega, if_true, hhead]
  unfold parseUintFrom
  simp only [hsz, if_false, hd]
  rw [parseUintLoop]
  simp [hdig.1, hdig.2]

/-- What `-minlen value` does: the `Set` of the `uint` flag `init` registered
decides, and on success the value is stored in `minlen`. -/
theorem setFlag_minlen (intSize : Nat) (s : String) (c : Styling) :
    setFlag intSize init "minlen" s c =
      match (uintValueSet intSize s).2 with
      | some e => .error (.invalidValue s "minlen" e)
      | none => .ok { c with minlen := (uintValueSet intSize s).1 } := by
  have hfind : init.find? (fun r => r.name == "minlen") =
      some (.UintVar .minlen "minlen" 2 "Minimum edge length (for wider output).") := by
    decide
  unfold setFlag
  rw [hfind]
  cases (uintValueSet intSize s).2 <;> rfl

/-- C7, as stated, fails: `-minlen 0` is accepted and stored, whatever the
width of `uint`, and so is `-rankdir sideways`; neither value lies in the
documented domain. -/
theorem styling_out_of_domain_accepted :
    setFlag 64 init "minlen" "0" defaultStyling = .ok { defaultStyling with minlen := 0 } ∧
    setFlag 32 init "minlen" "0" defaultStyling = .ok { defaultStyling with minlen := 0 } ∧
    validMinlen 0 = false ∧
    setFlag 64 init "rankdir" "sideways" defaultStyling =
      .ok { defaultStyling with rankdir := "sideways" } ∧
    validRankdir "sideways" = false := by
  refine ⟨?_, ?_, by decide, ?_, by decide⟩
  · rw [setFlag_minlen]
    have h : uintValueSet 64 "0" = (0, none) := by decide
    simp [h]
  · rw [setFlag_minlen]
    have h : uintValueSet 32 "0" = (0, none) := by decide
    simp [h]
  · have hfind : init.find? (fun r => r.name == "rankdir") =
        some (.StringVar .rankdir "rankdir" "LR"
          "Direction of graph layout [LR | RL | TB | BT]") := by
      decide
    unfold setFlag
    rw [hfind]
    rfl

/-- C7, amended. For `minlen` the only gate is the type of the flag, `uint`:
`-minlen text` is accepted exactly when `strconv.ParseUint(text, 0, IntSize)`
returns no error; every accepted value is an integer `v` with
`0 ≤ v < 2^IntSize` and is stored as parsed, the other variables untouched;
the decimal numeral of every such integer, zero included, is accepted; a text
that opens with a sign and the empty text are refused with a parse error. The
default, `2`, is positive. -/
theorem minlen_stored_as_parsed (intSize : Nat) (hs : intSize = 32 ∨ intSize = 64) :
    (∀ s c c1, setFlag intSize init "minlen" s c = .ok c1 →
      ParseUint intSize s 0 intSize = (c1.minlen, none) ∧ c1.minlen < 2 ^ intSize ∧
      c1 = { c with minlen := c1.minlen }) ∧
    (∀ s c, (ParseUint intSize s 0 intSize).2 ≠ none →
      ∃ e, setFlag intSize init "minlen" s c = .error (.invalidValue s "minlen" e)) ∧
    (∀ n c, n < 2 ^ intSize →
      setFlag intSize init "minlen" (Nat.repr n) c = .ok { c with minlen := n }) ∧
    (∀ s c, s.data.head? = some '+' ∨ s.data.head? = some '-' →
      setFlag intSize init "minlen" s c = .error (.invalidValue s "minlen" .errParse)) ∧
    (∀ c, setFlag intSize init "minlen" "" c = .error (.invalidValue "" "minlen" .errParse)) ∧
    defaultStyling.minlen = 2 ∧ validMinlen defaultStyling.minlen = true := by
  have h64 : intSize ≤ 64 := by rcases hs with h | h <;> omega
  refine ⟨?_, ?_, ?_, ?_, ?_, by decide, by decide⟩
  · intro s c c1 h
    rw [setFlag_minlen] at h
    cases he : (ParseUint intSize s 0 intSize).2 with
    | some e => simp [uintValueSet, he] at h
    | none =>
      have hlt := ParseUint_lt intSize s he
      have hv : (uintValueSet intSize s) = ((ParseUint intSize s 0 intSize).1, none) := by
        simp [uintValueSet, he, Nat.mod_eq_of_lt hlt]
      simp only [hv, Except.ok.injEq] at h
      subst h
      refine ⟨?_, hlt, rfl⟩
      rw [← he]
  · intro s c h
    rw [setFlag_minlen]
    cases he : (ParseUint intSize s 0 intSize).2 with
    | none => exact absurd he h
    | some e => exact ⟨numError e, by simp [uintValueSet, he]⟩
  · intro n c hn
    rw [setFlag_minlen]
    have hv : uintValueSet intSize (Nat.repr n) = (n, none) := by
      simp [uintValueSet, ParseUint_repr intSize h64 n hn, Nat.mod_eq_of_lt hn]
    simp [hv]
  · intro s c h
    rw [setFlag_minlen]
    have hv : (uintValueSet intSize s).2 = some .errParse := by
      simp [uintValueSet, ParseUint_sign intSize h64 s h, numError]
    simp [hv]
  · intro c
    rw [setFlag_minlen]
    have hv : (uintValueSet intSize "").2 = some .errParse := by
      simp [uintValueSet, ParseUint, numError]
    simp [hv]

/-- C7, amended, at a 64-bit `uint` and the texts `7` and `-0`. -/
theorem minlen_stored_as_parsed_witness :
    setFlag 64 init "minlen" (Nat.repr 7) defaultStyling =
      .ok { defaultStyling with minlen := 7 } ∧
    setFlag 64 init "minlen" "-0" defaultStyling =
      .error (.invalidValue "-0" "minlen" .errParse) :=
  ⟨(minlen_stored_as_parsed 64 (Or.inr rfl)).2.2.1 7 defaultStyling (by decide),
   (minlen_stored_as_parsed 64 (Or.inr rfl)).2.2.2.1 "-0" defaultStyling (Or.inr (by decide))⟩

/-! ## Concrete runs -/

/-- C1 at the default flags (server mode) and at `-file out` (file mode). -/
theorem main_mode_selection_witness :
    ((run envAllSucceed (defaultFlags "pointer" ["."])).world.flags.outputFile = "output" ∧
      (run envAllSucceed (defaultFlags "pointer" ["."])).trace.count
        (Event.ListenAndServe ":7878") = 1 ∧
      (∀ a b, Event.outputDot a b ∉ (run envAllSucceed (defaultFlags "pointer" ["."])).trace)) ∧
    (run envAllSucceed { defaultFlags "pointer" ["."] with outputFile := "out" }).trace.count
      (Event.outputDot "out" "svg") = 1 :=
  ⟨(main_mode_selection envAllSucceed (defaultFlags "pointer" ["."]) rfl rfl rfl).1.mpr rfl,
   ((main_mode_selection envAllSucceed { defaultFlags "pointer" ["."] with outputFile := "out" }
      rfl rfl rfl).2 (by decide)).1⟩

/-- C6 at a command line with no positional argument. -/
theorem exactly_one_package_argument_witness :
    run envAllSucceed (defaultFlags "pointer" []) =
      .exit 2 ⟨defaultFlags "pointer" [], [.stderrPrint Usage, .PrintDefaults]⟩ :=
  ((exactly_one_package_argument envAllSucceed (defaultFlags "pointer" []) rfl).1
    (by decide)).1

/-- C4 at a run in which `DoAnalysis` fails. -/
theorem analysis_precedes_readiness_witness :
    (run envAnalysisFails (defaultFlags "pointer" ["."])).exitCode = some 1 ∧
    (run envAnalysisFails (defaultFlags "pointer" ["."])).trace.getLast? =
      some (Event.logFatal "no packages") ∧
    (∀ e ∈ (run envAnalysisFails (defaultFlags "pointer" ["."])).trace, e.isOutput = false) :=
  (analysis_precedes_readiness envAnalysisFails (defaultFlags "pointer" ["."])).2
    ⟨"no packages"⟩ rfl rfl rfl

/-- C3 at a run in which `ProcessListArgs` fails. -/
theorem outputDot_aborts_on_first_error_witness :
    (outputDot envListArgsFail "out" "svg" ⟨defaultFlags "pointer" ["."], []⟩).exitCode =
      some 1 ∧
    (outputDot envListArgsFail "out" "svg" ⟨defaultFlags "pointer" ["."], []⟩).trace.getLast? =
      some (.logFatal ("bad list" ++ "\n")) ∧
    stepsFrom ⟨defaultFlags "pointer" ["."], []⟩
        (outputDot envListArgsFail "out" "svg" ⟨defaultFlags "pointer" ["."], []⟩) =
      (allSteps envListArgsFail "out" "svg").take 2 :=
  (outputDot_aborts_on_first_error envListArgsFail "out" "svg"
    ⟨defaultFlags "pointer" ["."], []⟩).1 ⟨"bad list"⟩ rfl

end GoCallvis
